import Mathlib

set_option maxRecDepth 8000

/-!
Shallow embedding of the conversation-store core of `src/assit/script.js`
(class `MaxLLMChatbot`), together with proofs about its operations.

Modelling conventions:
* The mutable fields of the `MaxLLMChatbot` object, plus the two
  `localStorage` slots and the IndexedDB object store, are gathered into one
  explicit `ChatState` record; every method becomes a pure function on it.
* `Date.now()` is modelled by the `now` field (wall-clock milliseconds);
  within one event-handler run the clock does not advance, so consecutive
  records may share a timestamp, exactly as in the browser.
* The IndexedDB store `chat_records` is the list `dbRecords`, kept in
  ascending primary-key (`id`) order; `nextId` is the auto-increment counter.
* The `localStorage` snapshot slot `maxllm_data` is `snapshotSlot`:
  `none` models an absent key, `some .corrupt` a present but unparseable
  (or wrongly-shaped) payload, `some (.valid d)` a payload that
  `JSON.parse` recovers intact.
* `JavaScript`'s stable `Array.prototype.sort` with comparator `c` is
  modelled by `List.insertionSort r` where `r a b` holds iff `c a b ≤ 0`;
  insertion sort is stable and sorts by `r`, matching the ECMAScript
  specification of `sort`.
-/

namespace MaxLLM

/-- The `role` field of a message; the source uses the string values
`user`, `assistant`, `error` plus `system` for the fixed instruction. -/
inductive Role
  | user
  | assistant
  | error
  | system
deriving DecidableEq

/-- A `(role, content)` pair as kept in `this.chatHistory` and in the
payload built by `buildMessages`. -/
structure ChatMsg where
  role : Role
  content : String
deriving DecidableEq

/-- The default model identifier hard-coded in the constructor and in
`loadFromDatabase`. -/
def defaultModel : String := "deepseek/deepseek-r1:free"

/-- The fixed system instruction prepended by `buildMessages`. -/
def systemPrompt : String := "You are maxLLM, a helpful and friendly AI assistant."

/-- One record of the IndexedDB object store `chat_records`
(`keyPath: id, autoIncrement: true`). -/
structure DbRecord where
  id : Nat
  sessionId : String
  timestamp : Nat
  role : Role
  content : String
  model : String
deriving DecidableEq

/-- The data recovered from a parseable `maxllm_data` payload
(the serialized `timestamp` field is never read back, so it is omitted). -/
structure SnapshotData where
  chatHistory : List ChatMsg
  currentModel : String
deriving DecidableEq

/-- Contents of the `maxllm_data` `localStorage` slot when present. -/
inductive SnapshotPayload
  | valid (d : SnapshotData)
  | corrupt
deriving DecidableEq

/-- The whole mutable state of the chatbot object plus its persistence:
object fields `apiKey`, `currentModel`, `chatHistory`, `isLoading`,
`db` (modelled by `dbAvailable`), `sessionId`; the DOM message area
(`uiMessages`); the `chat_records` store (`dbRecords`, `nextId`);
the `maxllm_data` slot (`snapshotSlot`); and the current clock (`now`). -/
structure ChatState where
  apiKey : Option String
  currentModel : String
  chatHistory : List ChatMsg
  isLoading : Bool
  dbAvailable : Bool
  dbRecords : List DbRecord
  nextId : Nat
  sessionId : String
  snapshotSlot : Option SnapshotPayload
  uiMessages : List ChatMsg
  now : Nat
deriving DecidableEq

/-- `String.prototype.trim()`: drop leading and trailing whitespace
characters (the model uses `Char.isWhitespace`, which covers the ASCII
whitespace the chat input can produce). -/
def jsTrim (s : String) : String :=
  String.mk (((s.data.dropWhile Char.isWhitespace).reverse.dropWhile
    Char.isWhitespace).reverse)

/-- The spec's `getLiveHistory()`: the in-memory `this.chatHistory`. -/
def getLiveHistory (st : ChatState) : List ChatMsg := st.chatHistory

/-- `addRecordToDb(role, content)`: no-op when `this.db` is null, otherwise
adds one record with auto-increment id, current session id, current time
and current model.  The source's `try/catch` swallows engine errors; the
model keeps the successful path and the guard. -/
def addRecordToDb (st : ChatState) (role : Role) (content : String) : ChatState :=
  if st.dbAvailable then
    { st with
      dbRecords := st.dbRecords ++
        [{ id := st.nextId, sessionId := st.sessionId, timestamp := st.now,
           role := role, content := content, model := st.currentModel }],
      nextId := st.nextId + 1 }
  else st

/-- `addMessage(role, content)`: always renders the message to the DOM;
for every role other than `error` it also pushes onto `chatHistory`
and calls `addRecordToDb`. -/
def addMessage (st : ChatState) (role : Role) (content : String) : ChatState :=
  let st1 := { st with uiMessages := st.uiMessages ++ [{ role := role, content := content }] }
  if role ≠ Role.error then
    addRecordToDb
      { st1 with chatHistory := st1.chatHistory ++ [{ role := role, content := content }] }
      role content
  else
    st1

/-- A sequence of `addMessage` calls, used to state properties about runs
of appends (the spec's `appendTurn`). -/
def appendTurns (st : ChatState) (turns : List (Role × String)) : ChatState :=
  turns.foldl (fun s p => addMessage s p.1 p.2) st

/-- `saveToDatabase()`: overwrites the `maxllm_data` slot with the current
history and model (the serialized timestamp carries no information that is
ever read back, so it is not modelled). -/
def saveToDatabase (st : ChatState) : ChatState :=
  { st with
    snapshotSlot :=
      some (.valid { chatHistory := st.chatHistory, currentModel := st.currentModel }) }

/-- `loadFromDatabase()`: absent slot does nothing; an unparseable payload
is caught (`catch`) and does nothing; a parsed payload `data` assigns
`data.chatHistory || []` (a JS array is always truthy, so this is the
stored list itself) and `data.currentModel || default` (the empty string
is falsy in JS, so it falls back to the default model), then re-renders
every restored message to the DOM. -/
def loadFromDatabase (st : ChatState) : ChatState :=
  match st.snapshotSlot with
  | none => st
  | some SnapshotPayload.corrupt => st
  | some (SnapshotPayload.valid d) =>
    let model := if d.currentModel = "" then defaultModel else d.currentModel
    { st with
      chatHistory := d.chatHistory,
      currentModel := model,
      uiMessages := st.uiMessages ++ d.chatHistory }

/-- `startNewSession(force)`: mints a time-based identifier and installs it
when forced or when no identifier exists (the unset identifier is modelled
by the empty string, the falsy value of the source's string field). -/
def startNewSession (st : ChatState) (force : Bool) : ChatState :=
  let newId := "session-" ++ toString st.now
  if force = true ∨ st.sessionId = "" then { st with sessionId := newId } else st

/-- `clearChat()`: empties the DOM message area and `chatHistory`, saves the
(now empty) snapshot, and force-rotates the session identifier.  It issues
no operation against the `chat_records` store. -/
def clearChat (st : ChatState) : ChatState :=
  startNewSession (saveToDatabase { st with uiMessages := [], chatHistory := [] }) true

/-- `Array.prototype.slice(-n)` on a list: the last `n` elements
(the whole list when it is shorter than `n`). -/
def sliceLast (n : Nat) (l : List α) : List α := l.drop (l.length - n)

/-- `buildMessages(userContent)`: fixed system instruction, then
`chatHistory.slice(-10)`, then the new user turn. -/
def buildMessages (history : List ChatMsg) (userContent : String) : List ChatMsg :=
  { role := Role.system, content := systemPrompt } ::
    sliceLast 10 history ++ [{ role := Role.user, content := userContent }]

/-- `estimateTokens(messages)`: `Math.ceil(totalChars / 4)` where
`totalChars` sums `m.content ? m.content.length : 0` (for string contents
the falsy case is exactly the empty string, whose length is `0`, so the
guard is length itself); on naturals `Math.ceil(t / 4) = (t + 3) / 4`. -/
def estimateTokens (messages : List ChatMsg) : Nat :=
  let totalChars := messages.foldl (fun sum m => sum + m.content.length) 0
  (totalChars + 3) / 4

/-- Sum of content lengths, the quantity `estimateTokens` rounds up from. -/
def totalChars (messages : List ChatMsg) : Nat :=
  (messages.map fun m => m.content.length).sum

/-- Outcome of the synchronous prefix of `sendMessage` (everything up to
the first `await`): silent early return, size rejection, or a provider
call with the built payload. -/
inductive SendOutcome
  | idle
  | rejected
  | proceed (payload : List ChatMsg)
deriving DecidableEq

/-- The synchronous prefix of `sendMessage()`: trim the input; return when
it is empty, a request is in flight, or no API key is set; build the
payload and reject with an `error` message when the estimate exceeds 1000;
otherwise append the user turn, set the loading flag and call the provider
(the asynchronous continuation is outside the model). -/
def sendMessage (st : ChatState) (rawInput : String) : ChatState × SendOutcome :=
  let message := jsTrim rawInput
  if message = "" ∨ st.isLoading = true ∨ st.apiKey = none then
    (st, SendOutcome.idle)
  else
    let messages := buildMessages st.chatHistory message
    if estimateTokens messages > 1000 then
      (addMessage st Role.error "CLEAR CHAT", SendOutcome.rejected)
    else
      ({ addMessage st Role.user message with isLoading := true },
        SendOutcome.proceed messages)

/-- One step of the `Map` building in `readAllSessions`: push the record
onto its session's bucket, creating the bucket at the end on first sight
(JS `Map` iterates in insertion order). -/
def addToGroups (gs : List (String × List DbRecord)) (r : DbRecord) :
    List (String × List DbRecord) :=
  match gs with
  | [] => [(r.sessionId, [r])]
  | (k, rs) :: t =>
    if k = r.sessionId then (k, rs ++ [r]) :: t
    else (k, rs) :: addToGroups t r

/-- The grouping pass of `readAllSessions` over the cursor scan
(records arrive in ascending primary-key order). -/
def groupBySession (recs : List DbRecord) : List (String × List DbRecord) :=
  recs.foldl addToGroups []

/-- The session keys in first-seen scan order (the key order of the JS
`Map` after the cursor loop). -/
def keyList (recs : List DbRecord) : List String :=
  recs.foldl (fun ks r => if r.sessionId ∈ ks then ks else ks ++ [r.sessionId]) []

/-- Order relation of the within-group sort
`records.sort((a,b) => a.timestamp - b.timestamp)`. -/
def tsLe (a b : DbRecord) : Prop := a.timestamp ≤ b.timestamp

instance : DecidableRel tsLe := fun a b =>
  inferInstanceAs (Decidable (a.timestamp ≤ b.timestamp))

instance tsLeTotal : IsTotal DbRecord tsLe :=
  ⟨fun a b => Nat.le_total a.timestamp b.timestamp⟩

instance tsLeTrans : IsTrans DbRecord tsLe :=
  ⟨fun _ _ _ => Nat.le_trans⟩

/-- The rendered view of one session in the history browser. -/
structure SessionView where
  sessionId : String
  records : List DbRecord
deriving DecidableEq

/-- `records[0]?.timestamp` of a view (groups are never empty, the
`getD 0` only totalizes the optional chaining). -/
def firstTimestamp (v : SessionView) : Nat :=
  (v.records.head?.map DbRecord.timestamp).getD 0

/-- Order relation of the group-list sort
`sort((a,b) => b.records[0]?.timestamp - a.records[0]?.timestamp)`:
`a` may precede `b` iff the comparator is `≤ 0`. -/
def viewGe (a b : SessionView) : Prop := firstTimestamp b ≤ firstTimestamp a

instance : DecidableRel viewGe := fun a b =>
  inferInstanceAs (Decidable (firstTimestamp b ≤ firstTimestamp a))

instance viewGeTotal : IsTotal SessionView viewGe :=
  ⟨fun a b => Nat.le_total (firstTimestamp b) (firstTimestamp a)⟩

instance viewGeTrans : IsTrans SessionView viewGe :=
  ⟨fun _ _ _ h h' => Nat.le_trans h' h⟩

/-- `readAllSessions()` on a completed cursor scan: group by session id in
first-seen order, sort each group by timestamp (stable), then sort the
groups by descending first timestamp (stable). -/
def readAllSessions (recs : List DbRecord) : List SessionView :=
  List.insertionSort viewGe ((groupBySession recs).map fun p =>
    { sessionId := p.1, records := List.insertionSort tsLe p.2 })

/-- What `showHistory()` does: with no database handle it alerts
("History unavailable") and renders nothing; otherwise it renders the
reconstructed sessions. -/
structure HistoryResult where
  unavailableAlert : Bool
  sessions : List SessionView
deriving DecidableEq

/-- `showHistory()`: the guard `if (!this.db) { alert(...); return; }`
followed by `readAllSessions` and rendering. -/
def showHistory (st : ChatState) : HistoryResult :=
  if st.dbAvailable then
    { unavailableAlert := false, sessions := readAllSessions st.dbRecords }
  else
    { unavailableAlert := true, sessions := [] }

/-- Outcome of the cursor traversal inside the `readAllSessions` promise:
either the full scan completes, or `onerror` fires after some prefix was
traversed (the prefix is recorded only to show it is discarded). -/
inductive ScanOutcome
  | ok (recs : List DbRecord)
  | failed (traversed : List DbRecord)

/-- The promise returned by `readAllSessions()`: `Except.error` models a
rejected promise.  The executor resolves the grouped sessions on a
complete scan and resolves `[]` from the `onerror` handler; no path calls
`reject`. -/
def readAllSessionsPromise : ScanOutcome → Except String (List SessionView)
  | ScanOutcome.ok recs => Except.ok (readAllSessions recs)
  | ScanOutcome.failed _ => Except.ok []

/-- The object state right after the constructor ran in an environment with
no stored data: no API key is modelled (`window.MAXLLM_API_KEY` absent),
default model, empty history, session id freshly minted from the clock. -/
def initialState (now : Nat) : ChatState :=
  { apiKey := none, currentModel := defaultModel, chatHistory := [],
    isLoading := false, dbAvailable := false, dbRecords := [], nextId := 1,
    sessionId := "session-" ++ toString now, snapshotSlot := none,
    uiMessages := [], now := now }

/-- A fresh state with a working database handle and an API key, used by
the concrete scenarios. -/
def scenarioStart : ChatState :=
  { initialState 100 with dbAvailable := true, apiKey := some "k" }

/-- The state after appending `(user, "hi")` then `(assistant, "hello")`. -/
def scenarioEnd : ChatState :=
  addMessage (addMessage scenarioStart Role.user "hi") Role.assistant "hello"

/-- The record persisted for the `(user, "hi")` turn. -/
def scenarioRec1 : DbRecord :=
  { id := 1, sessionId := "session-100", timestamp := 100, role := Role.user,
    content := "hi", model := defaultModel }

/-- The record persisted for the `(assistant, "hello")` turn. -/
def scenarioRec2 : DbRecord :=
  { id := 2, sessionId := "session-100", timestamp := 100, role := Role.assistant,
    content := "hello", model := defaultModel }

/-- A 400-character turn, ten of which overflow the 1000-token budget. -/
def bigMsg : ChatMsg :=
  { role := Role.user, content := String.mk (List.replicate 400 'a') }

/-- A state whose live history already estimates past the budget. -/
def c4State : ChatState :=
  { initialState 0 with
    apiKey := some "k",
    chatHistory := List.replicate 10 bigMsg }

/-- A state whose current model identifier is the empty string, the falsy
value that `data.currentModel || default` turns into the default model. -/
def c6SaveState : ChatState :=
  { initialState 0 with currentModel := "" }

/-- A state with a nonempty history and a nonempty model identifier, for
the snapshot round-trip witness. -/
def c6GoodState : ChatState :=
  { initialState 2 with
    chatHistory := [{ role := Role.user, content := "q" }],
    currentModel := "m1" }

/-! Frame lemmas for the write operations -/

theorem addRecordToDb_chatHistory (st : ChatState) (r : Role) (c : String) :
    (addRecordToDb st r c).chatHistory = st.chatHistory := by
  unfold addRecordToDb
  split <;> rfl

theorem addRecordToDb_snapshotSlot (st : ChatState) (r : Role) (c : String) :
    (addRecordToDb st r c).snapshotSlot = st.snapshotSlot := by
  unfold addRecordToDb
  split <;> rfl

theorem addRecordToDb_dbAvailable (st : ChatState) (r : Role) (c : String) :
    (addRecordToDb st r c).dbAvailable = st.dbAvailable := by
  unfold addRecordToDb
  split <;> rfl

theorem addRecordToDb_unavailable (st : ChatState) (r : Role) (c : String)
    (h : st.dbAvailable = false) : addRecordToDb st r c = st := by
  unfold addRecordToDb
  rw [if_neg]
  simp [h]

theorem addMessage_error_eq (st : ChatState) (c : String) :
    addMessage st Role.error c =
      { st with uiMessages := st.uiMessages ++ [{ role := Role.error, content := c }] } := by
  rfl

theorem addMessage_nonError_eq (st : ChatState) (r : Role) (c : String) (h : r ≠ Role.error) :
    addMessage st r c =
      addRecordToDb
        { st with
          uiMessages := st.uiMessages ++ [{ role := r, content := c }],
          chatHistory := st.chatHistory ++ [{ role := r, content := c }] } r c := by
  unfold addMessage
  rw [if_pos h]

theorem addMessage_chatHistory (st : ChatState) (r : Role) (c : String) (h : r ≠ Role.error) :
    (addMessage st r c).chatHistory = st.chatHistory ++ [{ role := r, content := c }] := by
  rw [addMessage_nonError_eq st r c h, addRecordToDb_chatHistory]

theorem addMessage_dbAvailable (st : ChatState) (r : Role) (c : String) :
    (addMessage st r c).dbAvailable = st.dbAvailable := by
  unfold addMessage
  split
  · rw [addRecordToDb_dbAvailable]
  · rfl

theorem addMessage_dbRecords_unavailable (st : ChatState) (r : Role) (c : String)
    (h : st.dbAvailable = false) : (addMessage st r c).dbRecords = st.dbRecords := by
  by_cases hr : r = Role.error
  · subst hr
    rw [addMessage_error_eq]
  · rw [addMessage_nonError_eq st r c hr,
      addRecordToDb_unavailable
        { st with
          uiMessages := st.uiMessages ++ [{ role := r, content := c }],
          chatHistory := st.chatHistory ++ [{ role := r, content := c }] } r c h]

theorem appendTurns_chatHistory (turns : List (Role × String)) :
    ∀ st : ChatState, (∀ p ∈ turns, p.1 ≠ Role.error) →
      (appendTurns st turns).chatHistory =
        st.chatHistory ++ turns.map fun p => { role := p.1, content := p.2 } := by
  induction turns with
  | nil => intro st _; simp [appendTurns]
  | cons p ts ih =>
    intro st h
    have h1 : p.1 ≠ Role.error := h p (List.mem_cons_self p ts)
    have h2 : ∀ q ∈ ts, q.1 ≠ Role.error := fun q hq => h q (List.mem_cons_of_mem p hq)
    show (appendTurns (addMessage st p.1 p.2) ts).chatHistory = _
    rw [ih _ h2, addMessage_chatHistory st p.1 p.2 h1]
    simp

theorem appendTurns_unavailable (turns : List (Role × String)) :
    ∀ st : ChatState, st.dbAvailable = false →
      (appendTurns st turns).dbAvailable = false
      ∧ (appendTurns st turns).dbRecords = st.dbRecords := by
  induction turns with
  | nil => intro st h; exact ⟨h, rfl⟩
  | cons p ts ih =>
    intro st h
    have hdb : (addMessage st p.1 p.2).dbAvailable = false := by
      rw [addMessage_dbAvailable]; exact h
    have := ih (addMessage st p.1 p.2) hdb
    refine ⟨this.1, ?_⟩
    show (appendTurns (addMessage st p.1 p.2) ts).dbRecords = st.dbRecords
    rw [this.2, addMessage_dbRecords_unavailable _ _ _ h]

/-! C1: the composite clear -/

/-- C1 counterexample: running `clearChat` on a state whose Durable Record
Store holds two persisted records leaves both records in place, so the
operation does not destroy the store's records and the store does not end
up with zero records. -/
theorem clearChat_store_counterexample :
    (clearChat scenarioEnd).dbRecords = scenarioEnd.dbRecords
    ∧ (clearChat scenarioEnd).dbRecords ≠ [] := by
  exact ⟨rfl, by decide⟩

/-- C1 (amended): `clearChat` empties the Live History and the rendered
messages, overwrites the Snapshot slot with an empty history (keeping the
current model), and force-rotates the session identifier to a fresh
time-based one; it leaves the Durable Record Store untouched, so earlier
records survive under the superseded session identifier. -/
theorem clearChat_spec (st : ChatState) :
    (clearChat st).chatHistory = []
    ∧ (clearChat st).uiMessages = []
    ∧ (clearChat st).snapshotSlot =
        some (SnapshotPayload.valid { chatHistory := [], currentModel := st.currentModel })
    ∧ (clearChat st).sessionId = "session-" ++ toString st.now
    ∧ (clearChat st).dbRecords = st.dbRecords := by
  unfold clearChat startNewSession saveToDatabase
  simp

/-! C2: live history reflects exactly the appended turns -/

/-- C2: a run of non-error `appendTurn`s starting from a freshly-reset
(empty) Live History makes `getLiveHistory` exactly that ordered sequence
of turns, and an `error` append changes nothing except the rendered DOM —
in particular neither Live History nor either persistence path. -/
theorem appendTurn_liveHistory_spec :
    (∀ (st : ChatState) (turns : List (Role × String)),
        (∀ p ∈ turns, p.1 ≠ Role.error) → st.chatHistory = [] →
        getLiveHistory (appendTurns st turns) =
          turns.map fun p => { role := p.1, content := p.2 })
    ∧ (∀ (st : ChatState) (c : String),
        addMessage st Role.error c =
          { st with uiMessages := st.uiMessages ++ [{ role := Role.error, content := c }] }) := by
  constructor
  · intro st turns h he
    unfold getLiveHistory
    rw [appendTurns_chatHistory turns st h, he]
    simp
  · intro st c
    exact addMessage_error_eq st c

/-- Closed instance of the C2 theorem at a concrete two-turn run. -/
theorem appendTurn_liveHistory_spec_witness :
    getLiveHistory (appendTurns (initialState 0) [(Role.user, "a"), (Role.assistant, "b")]) =
      [{ role := Role.user, content := "a" }, { role := Role.assistant, content := "b" }] :=
  appendTurn_liveHistory_spec.1 (initialState 0) [(Role.user, "a"), (Role.assistant, "b")]
    (by decide) rfl

/-! C9: silent early returns of sendMessage -/

/-- C9: with blank trimmed input, a request already in flight, or no API
key, `sendMessage` returns immediately and the entire state — Live
History, Snapshot slot and Durable Record Store included — is unchanged. -/
theorem sendMessage_earlyReturn_spec (st : ChatState) (input : String)
    (h : jsTrim input = "" ∨ st.isLoading = true ∨ st.apiKey = none) :
    sendMessage st input = (st, SendOutcome.idle) := by
  unfold sendMessage
  rw [if_pos h]

/-- Closed instance of the C9 theorem while a request is in flight. -/
theorem sendMessage_earlyReturn_spec_witness :
    sendMessage { initialState 3 with isLoading := true, apiKey := some "k" } "hi" =
      ({ initialState 3 with isLoading := true, apiKey := some "k" }, SendOutcome.idle) :=
  sendMessage_earlyReturn_spec { initialState 3 with isLoading := true, apiKey := some "k" }
    "hi" (Or.inr (Or.inl rfl))

/-! C10: the scan promise never rejects -/

/-- C10: the promise backing the full scan resolves on every outcome
(never `Except.error`), and a traversal failure resolves with the empty
list of session views, discarding any prefix already traversed. -/
theorem readAllSessionsPromise_spec :
    (∀ o : ScanOutcome, ∃ vs, readAllSessionsPromise o = Except.ok vs)
    ∧ (∀ pre : List DbRecord,
        readAllSessionsPromise (ScanOutcome.failed pre) = Except.ok []) := by
  constructor
  · intro o
    cases o with
    | ok recs => exact ⟨readAllSessions recs, rfl⟩
    | failed pre => exact ⟨[], rfl⟩
  · intro pre
    rfl

/-! C8: degraded store -/

/-- C8: with the store unavailable the write operations are explicit
no-ops on persistence (the model is total, mirroring the source's guarded
non-throwing paths): appending turns still updates Live History from
memory, the record store stays untouched, and opening the history renders
zero session views. -/
theorem storeUnavailable_spec (st : ChatState) (turns : List (Role × String))
    (hdb : st.dbAvailable = false) (hne : ∀ p ∈ turns, p.1 ≠ Role.error) :
    getLiveHistory (appendTurns st turns) =
        st.chatHistory ++ turns.map (fun p => { role := p.1, content := p.2 })
    ∧ (appendTurns st turns).dbRecords = st.dbRecords
    ∧ (showHistory (appendTurns st turns)).sessions = []
    ∧ (showHistory st).sessions = [] := by
  have h := appendTurns_unavailable turns st hdb
  refine ⟨appendTurns_chatHistory turns st hne, h.2, ?_, ?_⟩
  · unfold showHistory
    rw [if_neg]
    simp [h.1]
  · unfold showHistory
    rw [if_neg]
    simp [hdb]

/-- Closed instance of the C8 theorem: one user turn appended with the
database handle absent. -/
theorem storeUnavailable_spec_witness :
    getLiveHistory (appendTurns (initialState 5) [(Role.user, "hi")]) =
        (initialState 5).chatHistory ++
          [(Role.user, "hi")].map (fun p => { role := p.1, content := p.2 })
    ∧ (appendTurns (initialState 5) [(Role.user, "hi")]).dbRecords = (initialState 5).dbRecords
    ∧ (showHistory (appendTurns (initialState 5) [(Role.user, "hi")])).sessions = []
    ∧ (showHistory (initialState 5)).sessions = [] :=
  storeUnavailable_spec (initialState 5) [(Role.user, "hi")] rfl (by decide)

/-! C3: the context window builder -/

/-- C3: the outgoing payload is the fixed system instruction, then the
last ten live-history turns in their original order (all of them when the
history is shorter), then the new user turn; its length is at most 12, the
included history is a suffix of the live history, and an 11-turn history
contributes exactly its last 10 turns for a 12-message payload. -/
theorem buildMessages_spec (h : List ChatMsg) (c : String) :
    buildMessages h c =
        { role := Role.system, content := systemPrompt } ::
          (h.reverse.take 10).reverse ++ [{ role := Role.user, content := c }]
    ∧ (buildMessages h c).length ≤ 12
    ∧ sliceLast 10 h <:+ h
    ∧ (h.length ≤ 10 → buildMessages h c =
        { role := Role.system, content := systemPrompt } :: h ++
          [{ role := Role.user, content := c }])
    ∧ (h.length = 11 → buildMessages h c =
        { role := Role.system, content := systemPrompt } :: h.tail ++
          [{ role := Role.user, content := c }]
        ∧ (buildMessages h c).length = 12) := by
  refine ⟨?_, ?_, List.drop_suffix _ _, ?_, ?_⟩
  · rw [List.take_reverse, List.reverse_reverse]
    rfl
  · simp [buildMessages, sliceLast]
    omega
  · intro hle
    unfold buildMessages sliceLast
    rw [Nat.sub_eq_zero_of_le hle, List.drop_zero]
  · intro h11
    constructor
    · unfold buildMessages sliceLast
      rw [h11]
      norm_num [List.drop_one]
    · simp [buildMessages, sliceLast, h11]

/-- Closed instance of the C3 theorem on an 11-turn history. -/
theorem buildMessages_spec_witness :
    buildMessages (List.replicate 11 { role := Role.user, content := "t" }) "new" =
        { role := Role.system, content := systemPrompt } ::
          (List.replicate 11 { role := Role.user, content := "t" }).tail ++
          [{ role := Role.user, content := "new" }]
    ∧ (buildMessages (List.replicate 11 { role := Role.user, content := "t" }) "new").length = 12 :=
  (buildMessages_spec (List.replicate 11 { role := Role.user, content := "t" }) "new").2.2.2.2
    (by decide)

/-! C6: the snapshot round trip -/

/-- C6 counterexample: saving a snapshot whose model identifier is the
empty string and loading it back yields the default model identifier, not
the saved one, because `data.currentModel || default` treats the empty
string as falsy; so the round trip does not hold for every model id. -/
theorem snapshot_roundTrip_counterexample :
    (loadFromDatabase (saveToDatabase c6SaveState)).currentModel ≠ c6SaveState.currentModel := by
  decide

/-- C6 (amended): for every history and every nonempty model identifier,
saving and loading the snapshot restores exactly that history and model;
an absent slot and a corrupt payload are both handled without throwing and
leave the state unchanged, so at startup (where the state holds the empty
history and the default model) they fall back to those defaults. -/
theorem snapshot_roundTrip_spec (st : ChatState) (hm : st.currentModel ≠ "") :
    (getLiveHistory (loadFromDatabase (saveToDatabase st)) = st.chatHistory
      ∧ (loadFromDatabase (saveToDatabase st)).currentModel = st.currentModel)
    ∧ (∀ s : ChatState, s.snapshotSlot = none → loadFromDatabase s = s)
    ∧ (∀ s : ChatState, s.snapshotSlot = some SnapshotPayload.corrupt → loadFromDatabase s = s)
    ∧ (∀ n : Nat, getLiveHistory (loadFromDatabase (initialState n)) = []
        ∧ (loadFromDatabase (initialState n)).currentModel = defaultModel) := by
  refine ⟨?_, ?_, ?_, ?_⟩
  · simp [loadFromDatabase, saveToDatabase, getLiveHistory, hm]
  · intro s hs
    simp [loadFromDatabase, hs]
  · intro s hs
    simp [loadFromDatabase, hs]
  · intro n
    simp [loadFromDatabase, initialState, getLiveHistory]

/-- Closed instance of the C6 round trip on a nonempty model id. -/
theorem snapshot_roundTrip_spec_witness :
    getLiveHistory (loadFromDatabase (saveToDatabase c6GoodState)) = c6GoodState.chatHistory
    ∧ (loadFromDatabase (saveToDatabase c6GoodState)).currentModel = c6GoodState.currentModel :=
  (snapshot_roundTrip_spec c6GoodState (by decide)).1

/-! C7: the token estimate -/

theorem foldl_add_content_length (msgs : List ChatMsg) :
    ∀ n : Nat, msgs.foldl (fun s m => s + m.content.length) n = n + totalChars msgs := by
  induction msgs with
  | nil => intro n; simp [totalChars]
  | cons m ms ih =>
    intro n
    show List.foldl _ (n + m.content.length) ms = _
    rw [ih]
    simp [totalChars]
    omega

theorem estimateTokens_eq (msgs : List ChatMsg) :
    estimateTokens msgs = (totalChars msgs + 3) / 4 := by
  unfold estimateTokens
  rw [foldl_add_content_length msgs 0]
  simp

/-- C7: the token estimate is the total content length divided by four and
rounded up — characterized by the two inequalities that pin down the
ceiling — it returns `0` on the empty sequence, and it is monotone
non-decreasing in total content length.  (The source's `try/catch`
fallback to `0` guards dynamic-typing failures that the typed model makes
unreachable: the modelled function is total.) -/
theorem estimateTokens_spec :
    (∀ msgs : List ChatMsg,
        totalChars msgs ≤ 4 * estimateTokens msgs
        ∧ 4 * estimateTokens msgs < totalChars msgs + 4)
    ∧ estimateTokens [] = 0
    ∧ (∀ m1 m2 : List ChatMsg, totalChars m1 ≤ totalChars m2 →
        estimateTokens m1 ≤ estimateTokens m2) := by
  refine ⟨?_, rfl, ?_⟩
  · intro msgs
    rw [estimateTokens_eq]
    have h1 := Nat.div_add_mod (totalChars msgs + 3) 4
    have h2 : (totalChars msgs + 3) % 4 < 4 := Nat.mod_lt _ (by decide)
    omega
  · intro m1 m2 hle
    rw [estimateTokens_eq, estimateTokens_eq]
    exact Nat.div_le_div_right (by omega)

/-- Closed instance of C7 monotonicity on concrete message lists. -/
theorem estimateTokens_spec_witness :
    estimateTokens [] ≤ estimateTokens [{ role := Role.user, content := "hi" }] :=
  estimateTokens_spec.2.2 [] [{ role := Role.user, content := "hi" }] (by decide)

/-! C4: the size rejection -/

/-- C4: once the input passes the early-return guards, an estimated payload
size above 1000 rejects the turn before the provider call — the rejection
is rendered as an error message while Live History, the Durable Record
Store and the Snapshot slot are all left unchanged; when the estimate
fits, the send path proceeds with exactly the built payload, appending the
new user turn. -/
theorem sendMessage_tooLong_spec (st : ChatState) (input : String)
    (h1 : jsTrim input ≠ "") (h2 : st.isLoading = false) (h3 : st.apiKey ≠ none) :
    (1000 < estimateTokens (buildMessages st.chatHistory (jsTrim input)) →
        sendMessage st input =
          ({ st with uiMessages := st.uiMessages ++
              [{ role := Role.error, content := "CLEAR CHAT" }] },
            SendOutcome.rejected))
    ∧ (estimateTokens (buildMessages st.chatHistory (jsTrim input)) ≤ 1000 →
        (sendMessage st input).2 =
            SendOutcome.proceed (buildMessages st.chatHistory (jsTrim input))
        ∧ (sendMessage st input).1.chatHistory =
            st.chatHistory ++ [{ role := Role.user, content := jsTrim input }]) := by
  have hcond : ¬ (jsTrim input = "" ∨ st.isLoading = true ∨ st.apiKey = none) := by
    simp [h1, h2, h3]
  constructor
  · intro hbig
    simp only [sendMessage]
    rw [if_neg hcond, if_pos hbig, addMessage_error_eq]
  · intro hsmall
    simp only [sendMessage]
    rw [if_neg hcond, if_neg (by omega :
      ¬ 1000 < estimateTokens (buildMessages st.chatHistory (jsTrim input)))]
    exact ⟨rfl, addMessage_chatHistory st Role.user (jsTrim input) (by decide)⟩

/-- Closed instance of the C4 rejection on an over-budget history. -/
theorem sendMessage_tooLong_spec_witness :
    sendMessage c4State "x" =
      ({ c4State with uiMessages := c4State.uiMessages ++
          [{ role := Role.error, content := "CLEAR CHAT" }] },
        SendOutcome.rejected) :=
  (sendMessage_tooLong_spec c4State "x" (by decide) rfl (by decide)).1 (by decide)

/-! C5: the history reconstruction -/

theorem groupBySession_append (recs : List DbRecord) (r : DbRecord) :
    groupBySession (recs ++ [r]) = addToGroups (groupBySession recs) r := by
  unfold groupBySession
  rw [List.foldl_append]
  rfl

theorem keyList_append (recs : List DbRecord) (r : DbRecord) :
    keyList (recs ++ [r]) =
      if r.sessionId ∈ keyList recs then keyList recs
      else keyList recs ++ [r.sessionId] := by
  unfold keyList
  rw [List.foldl_append]
  rfl

theorem mem_keyList (k : String) (recs : List DbRecord) :
    k ∈ keyList recs ↔ k ∈ recs.map DbRecord.sessionId := by
  induction recs using List.reverseRecOn with
  | nil => simp [keyList]
  | append_singleton l r ih =>
    rw [keyList_append]
    by_cases h : r.sessionId ∈ keyList l
    · rw [if_pos h]
      simp only [List.map_append, List.map_cons, List.map_nil, List.mem_append,
        List.mem_singleton]
      constructor
      · intro hk
        exact Or.inl (ih.mp hk)
      · intro hk
        rcases hk with hk | hk
        · exact ih.mpr hk
        · subst hk
          exact h
    · rw [if_neg h]
      simp [ih]

theorem nodup_keyList (recs : List DbRecord) : (keyList recs).Nodup := by
  induction recs using List.reverseRecOn with
  | nil => simp [keyList]
  | append_singleton l r ih =>
    rw [keyList_append]
    by_cases h : r.sessionId ∈ keyList l
    · rw [if_pos h]
      exact ih
    · rw [if_neg h]
      simp [List.nodup_append, ih, h]

theorem addToGroups_mem (F : String → List DbRecord) (r : DbRecord) :
    ∀ ks : List String, ks.Nodup → r.sessionId ∈ ks →
      addToGroups (ks.map fun k => (k, F k)) r =
        ks.map fun k => (k, if k = r.sessionId then F k ++ [r] else F k) := by
  intro ks
  induction ks with
  | nil =>
    intro _ h
    simp at h
  | cons a t ih =>
    intro hnd hmem
    simp only [List.map_cons, addToGroups]
    by_cases ha : a = r.sessionId
    · have hnt : a ∉ t := (List.nodup_cons.mp hnd).1
      subst ha
      rw [if_pos rfl]
      congr 1
      · simp
      · symm
        apply List.map_congr_left
        intro k hk
        rw [if_neg (fun e : k = r.sessionId => hnt (e ▸ hk))]
    · have hmem2 : r.sessionId ∈ t := by
        rcases List.mem_cons.mp hmem with h | h
        · exact absurd h.symm ha
        · exact h
      rw [if_neg ha, ih (List.nodup_cons.mp hnd).2 hmem2]
      congr 1
      rw [if_neg ha]

theorem addToGroups_not_mem (F : String → List DbRecord) (r : DbRecord) :
    ∀ ks : List String, r.sessionId ∉ ks →
      addToGroups (ks.map fun k => (k, F k)) r =
        (ks.map fun k => (k, F k)) ++ [(r.sessionId, [r])] := by
  intro ks
  induction ks with
  | nil =>
    intro _
    rfl
  | cons a t ih =>
    intro h
    have ha : a ≠ r.sessionId := by
      intro e
      exact h (by rw [← e]; exact List.mem_cons_self a t)
    simp only [List.map_cons, addToGroups]
    rw [if_neg ha, ih (fun hm => h (List.mem_cons_of_mem a hm))]
    rfl

theorem groupBySession_closed (recs : List DbRecord) :
    groupBySession recs =
      (keyList recs).map fun k => (k, recs.filter fun x => x.sessionId == k) := by
  induction recs using List.reverseRecOn with
  | nil => rfl
  | append_singleton l r ih =>
    rw [groupBySession_append, ih, keyList_append]
    by_cases h : r.sessionId ∈ keyList l
    · rw [if_pos h, addToGroups_mem _ r _ (nodup_keyList l) h]
      apply List.map_congr_left
      intro k hk
      by_cases hk2 : k = r.sessionId
      · subst hk2
        simp [List.filter_append, List.filter_cons]
      · have hne : (r.sessionId == k) = false :=
          beq_eq_false_iff_ne.mpr (fun e => hk2 e.symm)
        simp [List.filter_append, List.filter_cons, hk2, hne]
    · rw [if_neg h, addToGroups_not_mem _ r _ h, List.map_append]
      congr 1
      · apply List.map_congr_left
        intro k hk
        have hk2 : (r.sessionId == k) = false := by
          rw [beq_eq_false_iff_ne]
          intro e
          exact h (e ▸ hk)
        simp [List.filter_append, List.filter_cons, hk2]
      · have hnil : l.filter (fun x => x.sessionId == r.sessionId) = [] := by
          rw [List.filter_eq_nil_iff]
          intro a ha
          simp only [beq_iff_eq]
          intro e
          exact h ((mem_keyList r.sessionId l).mpr
            (by rw [← e]; exact List.mem_map_of_mem DbRecord.sessionId ha))
        simp [List.filter_append, List.filter_cons, hnil]

theorem filter_ts_orderedInsert (t : Nat) (a : DbRecord) (l : List DbRecord) :
    (List.orderedInsert tsLe a l).filter (fun x => x.timestamp == t) =
      if a.timestamp = t then
        a :: l.filter (fun x => x.timestamp == t)
      else l.filter (fun x => x.timestamp == t) := by
  induction l with
  | nil =>
    simp only [List.orderedInsert_nil]
    by_cases h : a.timestamp = t
    · simp [List.filter_cons, h]
    · simp [List.filter_cons, h]
  | cons b l ih =>
    simp only [List.orderedInsert]
    by_cases hab : tsLe a b
    · rw [if_pos hab]
      by_cases h : a.timestamp = t
      · simp [List.filter_cons, h]
      · simp [List.filter_cons, h]
    · rw [if_neg hab]
      have hb : b.timestamp < a.timestamp := by
        unfold tsLe at hab
        omega
      simp only [List.filter_cons, ih]
      by_cases h : a.timestamp = t
      · have hbt : (b.timestamp == t) = false := by
          rw [beq_eq_false_iff_ne]
          omega
        simp [h, hbt]
      · simp [h]

theorem filter_ts_insertionSort (t : Nat) (l : List DbRecord) :
    (List.insertionSort tsLe l).filter (fun x => x.timestamp == t) =
      l.filter (fun x => x.timestamp == t) := by
  induction l with
  | nil => rfl
  | cons a l ih =>
    show (List.orderedInsert tsLe a (List.insertionSort tsLe l)).filter _ = _
    rw [filter_ts_orderedInsert t a (List.insertionSort tsLe l)]
    by_cases h : a.timestamp = t
    · rw [if_pos h, ih, List.filter_cons]
      simp [h]
    · rw [if_neg h, ih, List.filter_cons]
      simp [h]

theorem readAllSessions_mem (recs : List DbRecord) (v : SessionView)
    (hv : v ∈ readAllSessions recs) :
    v.records = List.insertionSort tsLe (recs.filter fun x => x.sessionId == v.sessionId) := by
  unfold readAllSessions at hv
  have hv2 := (List.perm_insertionSort viewGe _).mem_iff.mp hv
  rw [groupBySession_closed, List.map_map] at hv2
  obtain ⟨k, hk, he⟩ := List.mem_map.mp hv2
  rw [← he]
  rfl

theorem readAllSessions_map_sid (recs : List DbRecord) :
    ((readAllSessions recs).map SessionView.sessionId).Perm (keyList recs) := by
  unfold readAllSessions
  refine ((List.perm_insertionSort viewGe _).map SessionView.sessionId).trans ?_
  rw [groupBySession_closed]
  have hmap : ∀ ks : List String,
      ((ks.map fun k => (k, recs.filter fun x => x.sessionId == k)).map fun p =>
        ({ sessionId := p.1, records := List.insertionSort tsLe p.2 } : SessionView)).map
          SessionView.sessionId = ks := by
    intro ks
    induction ks with
    | nil => rfl
    | cons a t ih =>
      simp only [List.map_cons, List.cons.injEq]
      exact ⟨trivial, ih⟩
  rw [hmap]

/-- C5: the reconstruction groups the ascending scan by session id — each
view's records are a permutation of exactly that session's scanned
records, sorted by timestamp ascending with ties kept in scan (primary
key) order, which is expressed by the filter at every fixed timestamp
being preserved verbatim; the view list is sorted by descending first
timestamp; the views carry pairwise-distinct session ids, exactly the ids
occurring in the scan; and appending (`user`,"hi") then
(`assistant`,"hello") yields one view with those two records in order. -/
theorem readAllSessions_spec :
    (∀ (recs : List DbRecord) (v : SessionView), v ∈ readAllSessions recs →
        v.records.Perm (recs.filter fun x => x.sessionId == v.sessionId)
        ∧ List.Sorted tsLe v.records
        ∧ ∀ t : Nat, v.records.filter (fun x => x.timestamp == t) =
            (recs.filter fun x => x.sessionId == v.sessionId).filter
              fun x => x.timestamp == t)
    ∧ (∀ recs : List DbRecord, List.Sorted viewGe (readAllSessions recs))
    ∧ (∀ recs : List DbRecord,
        ((readAllSessions recs).map SessionView.sessionId).Nodup
        ∧ ∀ k : String, k ∈ (readAllSessions recs).map SessionView.sessionId
            ↔ k ∈ recs.map DbRecord.sessionId)
    ∧ showHistory scenarioEnd =
        { unavailableAlert := false,
          sessions := [{ sessionId := "session-100",
                         records := [scenarioRec1, scenarioRec2] }] } := by
  refine ⟨?_, ?_, ?_, by decide⟩
  · intro recs v hv
    have he := readAllSessions_mem recs v hv
    refine ⟨?_, ?_, ?_⟩
    · rw [he]
      exact List.perm_insertionSort tsLe _
    · rw [he]
      exact List.sorted_insertionSort tsLe _
    · intro t
      rw [he, filter_ts_insertionSort]
  · intro recs
    unfold readAllSessions
    exact List.sorted_insertionSort viewGe _
  · intro recs
    constructor
    · exact (readAllSessions_map_sid recs).nodup_iff.mpr (nodup_keyList recs)
    · intro k
      rw [(readAllSessions_map_sid recs).mem_iff, mem_keyList]

/-- Closed instance of C5: the scenario's reconstructed group is sorted by
timestamp. -/
theorem readAllSessions_spec_witness :
    List.Sorted tsLe
      ({ sessionId := "session-100",
         records := [scenarioRec1, scenarioRec2] } : SessionView).records :=
  ((readAllSessions_spec.1 scenarioEnd.dbRecords
      { sessionId := "session-100", records := [scenarioRec1, scenarioRec2] }
      (by decide)).2).1

end MaxLLM
